import Mathlib

/-!
Shallow embedding of the slangify serverless translation endpoint
(`api/translate.ts`): input validation, per-client rate limiting,
response caching, upstream result schema validation, and the request
handler pipeline, together with theorems checking the specification's
claims against this embedding.

Times are modelled as `Int` milliseconds; the JavaScript `Map` objects
are modelled as association lists with `Map.set`-style update.
-/

/-- Configuration constant `MAX_CHARACTERS` from `CONFIG`. -/
def MAX_CHARACTERS : Nat := 80

/-- Configuration constant `MAX_WORDS` from `CONFIG`. -/
def MAX_WORDS : Nat := 20

/-- Configuration constant `RATE_LIMIT_REQUESTS` from `CONFIG`. -/
def RATE_LIMIT_REQUESTS : Nat := 10

/-- Configuration constant `RATE_LIMIT_WINDOW_MS` (one hour) from `CONFIG`. -/
def RATE_LIMIT_WINDOW_MS : Int := 60 * 60 * 1000

/-- Configuration constant `CACHE_TTL_MS` (24 hours) from `CONFIG`. -/
def CACHE_TTL_MS : Int := 24 * 60 * 60 * 1000

/-- Whitespace predicate modelling the JavaScript regex class `\s`
and the characters removed by `String.prototype.trim`. -/
def isWs (c : Char) : Bool :=
  c = ' ' || c = '\t' || c = '\n' || c = '\r' || c = '\x0b' || c = '\x0c'

/-- Drop leading and trailing whitespace from a character list. -/
def trimCharList (l : List Char) : List Char :=
  ((l.dropWhile isWs).reverse.dropWhile isWs).reverse

/-- Model of JavaScript `text.trim()`. -/
def jsTrim (s : String) : String := String.mk (trimCharList s.data)

/-- Model of JavaScript `text.toLowerCase()`. -/
def jsToLower (s : String) : String := String.mk (s.data.map Char.toLower)

/-- Collapse each maximal whitespace run to a single space,
modelling `replace(/\s+/g, " ")`. -/
def collapseWs : List Char → List Char
  | [] => []
  | [c] => if isWs c then [' '] else [c]
  | c :: c2 :: cs =>
    if isWs c && isWs c2 then collapseWs (c2 :: cs)
    else (if isWs c then ' ' else c) :: collapseWs (c2 :: cs)

/-- `normalizeText` from the source: lowercase, trim, collapse internal
whitespace to single spaces. -/
def normalizeText (text : String) : String :=
  String.mk (collapseWs (trimCharList ((jsToLower text).data)))

/-- Number of maximal non-whitespace runs, modelling
`trimmed.split(/\s+/).filter(Boolean).length`. -/
def countWords (s : String) : Nat :=
  (s.data.foldl
    (fun st c =>
      if isWs c then (st.1, false)
      else if st.2 then st else (st.1 + 1, true))
    ((0 : Nat), false)).1

/-- Wrap an integer to JavaScript 32-bit signed semantics (`| 0`). -/
def toInt32 (n : Int) : Int := (n + 2 ^ 31) % 2 ^ 32 - 2 ^ 31

/-- One step of the string hash loop in `getCacheKey`:
`hash = (hash << 5) - hash + char; hash |= 0`. -/
def hashStep (h : Int) (c : Char) : Int :=
  toInt32 (toInt32 (h * 32) - h + (c.toNat : Int))

/-- The full hash loop of `getCacheKey` over a string. -/
def jsHash (s : String) : Int := s.data.foldl hashStep 0

/-- `getCacheKey` from the source: hash of the normalized text,
rendered as `cache_` followed by the absolute value. -/
def getCacheKey (text : String) : String :=
  "cache_" ++ toString (jsHash (normalizeText text)).natAbs

/-- `validateInput` from the source; `none` means valid, `some code`
is the error code of the failure response. -/
def validateInput (text : String) : Option String :=
  if text = "" ∨ jsTrim text = "" then some "INVALID_INPUT"
  else if (jsTrim text).length > MAX_CHARACTERS then some "INPUT_TOO_LONG"
  else if countWords (jsTrim text) > MAX_WORDS then some "TOO_MANY_WORDS"
  else none

/-- Model of the JSON values produced by `JSON.parse`. -/
inductive Json where
  | null : Json
  | bool : Bool → Json
  | num : Int → Json
  | str : String → Json
  | arr : List Json → Json
  | obj : List (String × Json) → Json

/-- JavaScript property access `x.k` on a parsed JSON value:
defined only on objects, `undefined` (here `none`) everywhere else. -/
def Json.getField : Json → String → Option Json
  | .obj fields, k => fields.lookup k
  | _, _ => none

/-- JavaScript truthiness of a parsed JSON value (used by the `!x`
and `!t` and `!sw` guards in `isValidResult`). -/
def Json.truthy : Json → Bool
  | .null => false
  | .bool b => b
  | .num n => n != 0
  | .str s => s != ""
  | _ => true

/-- Whether `typeof x === "object"` holds for a parsed JSON value
(true for objects, arrays and null). -/
def typeofObject : Json → Bool
  | .obj _ => true
  | .arr _ => true
  | .null => true
  | _ => false

/-- Whether property `k` of `x` is a string (`typeof x.k === "string"`). -/
def isStrField (x : Json) (k : String) : Bool :=
  match x.getField k with
  | some (.str _) => true
  | _ => false

/-- The per-slang-word check inside `isValidResult`:
`!sw || typeof sw.word !== "string" || typeof sw.definition !== "string"`
fails the whole validation. -/
def isValidSlangWord (sw : Json) : Bool :=
  sw.truthy && isStrField sw "word" && isStrField sw "definition"

/-- The per-translation check inside the `isValidResult` loop. -/
def isValidTranslation (t : Json) : Bool :=
  t.truthy && typeofObject t && isStrField t "generation" && isStrField t "text" &&
  (match t.getField "slangWords" with
   | some (.arr sws) => sws.all isValidSlangWord
   | _ => false)

/-- `isValidResult` from the source: the structure validation run on the
parsed model output before it may be returned or cached. -/
def isValidResult (x : Json) : Bool :=
  x.truthy && typeofObject x &&
  isStrField x "detectedGeneration" && isStrField x "originalText" &&
  (match x.getField "translations" with
   | some (.arr ts) => (ts.length == 6) && ts.all isValidTranslation
   | _ => false)

/-- The schema demanded by the specification's words: a string
`detectedGeneration`, a string `originalText`, and a `translations`
array of exactly 6 entries, each with a string `generation`, a string
`text`, and a `slangWords` array whose every element has a string
`word` and a string `definition`. -/
def SpecValidResult (x : Json) : Prop :=
  (∃ s, x.getField "detectedGeneration" = some (.str s)) ∧
  (∃ s, x.getField "originalText" = some (.str s)) ∧
  (∃ ts, x.getField "translations" = some (.arr ts) ∧ ts.length = 6 ∧
    ∀ t ∈ ts,
      (∃ s, t.getField "generation" = some (.str s)) ∧
      (∃ s, t.getField "text" = some (.str s)) ∧
      (∃ sws, t.getField "slangWords" = some (.arr sws) ∧
        ∀ sw ∈ sws,
          (∃ w, sw.getField "word" = some (.str w)) ∧
          (∃ d, sw.getField "definition" = some (.str d))))

/-- A rate-limit store entry `{ count, windowStart }`. -/
structure RLEntry where
  count : Nat
  windowStart : Int
deriving DecidableEq

/-- A cache store entry `{ result, timestamp, normalizedText }`. -/
structure CacheEntry where
  result : Json
  timestamp : Int
  normalizedText : String

/-- The rate-limit store (`rateLimitStore`), a JavaScript `Map`. -/
abbrev RLMap : Type := List (String × RLEntry)

/-- The response cache store (`cacheStore`), a JavaScript `Map`. -/
abbrev CacheMap : Type := List (String × CacheEntry)

/-- `Map.set`: replace the value at an existing key in place, else append. -/
def setA {α : Type} : List (String × α) → String → α → List (String × α)
  | [], k, v => [(k, v)]
  | p :: t, k, v => if p.1 = k then (k, v) :: t else p :: setA t k v

/-- `Map.delete`: remove the entry at a key. -/
def delA {α : Type} (m : List (String × α)) (k : String) : List (String × α) :=
  m.filter (fun p => p.1 ≠ k)

/-- Result of `checkRateLimit`: `{ allowed, retryAfter? }`. -/
structure RateLimitResult where
  allowed : Bool
  retryAfter : Option Int
deriving DecidableEq

/-- `Math.ceil(a / 1000)` on integer millisecond amounts. -/
def jsCeilDiv1000 (a : Int) : Int := (a + 999) / 1000

/-- `checkRateLimit` from the source, with the current time passed
explicitly; returns the decision and the updated store. -/
def checkRateLimit (now : Int) (deviceId : String) (rl : RLMap) :
    RateLimitResult × RLMap :=
  let key := if deviceId = "" then "anonymous" else deviceId
  match List.lookup key rl with
  | none => (⟨true, none⟩, setA rl key ⟨1, now⟩)
  | some data =>
    if now - data.windowStart > RATE_LIMIT_WINDOW_MS then
      (⟨true, none⟩, setA rl key ⟨1, now⟩)
    else if data.count ≥ RATE_LIMIT_REQUESTS then
      (⟨false, some (max 0 (jsCeilDiv1000 (data.windowStart + RATE_LIMIT_WINDOW_MS - now)))⟩, rl)
    else
      (⟨true, none⟩, setA rl key ⟨data.count + 1, data.windowStart⟩)

/-- `getFromCache` from the source: returns the hit (if any) and the
updated store (an expired entry is deleted as a side effect). -/
def getFromCache (now : Int) (text : String) (cache : CacheMap) :
    Option Json × CacheMap :=
  let cacheKey := getCacheKey text
  match List.lookup cacheKey cache with
  | none => (none, cache)
  | some entry =>
    if now - entry.timestamp > CACHE_TTL_MS then (none, delA cache cacheKey)
    else if entry.normalizedText ≠ normalizeText text then (none, cache)
    else (some entry.result, cache)

/-- Insertion step for sorting cache entries by ascending timestamp. -/
def insertByTs (p : String × CacheEntry) :
    List (String × CacheEntry) → List (String × CacheEntry)
  | [] => [p]
  | q :: t => if p.2.timestamp < q.2.timestamp then p :: q :: t else q :: insertByTs p t

/-- Sort cache entries by ascending timestamp (the eviction order). -/
def sortByTs (l : List (String × CacheEntry)) : List (String × CacheEntry) :=
  l.foldr insertByTs []

/-- `saveToCache` from the source: when the store holds more than 100
entries, the 50 oldest are deleted, then the entry is written. -/
def saveToCache (now : Int) (text : String) (result : Json) (cache : CacheMap) :
    CacheMap :=
  let cacheKey := getCacheKey text
  let cache2 :=
    if 100 < cache.length then
      let victims := ((sortByTs cache).take 50).map (fun p => p.1)
      cache.filter (fun p => ¬ victims.contains p.1)
    else cache
  setA cache2 cacheKey ⟨result, now, normalizeText text⟩

/-- Outcome of the upstream provider interaction, abstracting the
network call and the two JSON parse stages of the handler. -/
inductive Upstream where
  | httpErr : Nat → Upstream
  | envelopeParseErr : Upstream
  | emptyContent : Upstream
  | contentParseErr : Upstream
  | content : Json → Upstream

/-- An HTTP response produced by the handler. The `success` payload
carries the `output` value and the `cached` field when present
(`none` models a body with no `cached` property). -/
inductive Resp where
  | empty : Nat → Resp
  | err : Nat → String → Resp
  | errRetry : Nat → String → Int → Resp
  | success : Json → Option Bool → Resp

/-- The process-local mutable state: the rate-limit and cache stores. -/
structure St where
  rl : RLMap
  cache : CacheMap

/-- The key the handler passes to `checkRateLimit`
(`deviceId || "anonymous"`). -/
def devKey : Option String → String
  | none => "anonymous"
  | some d => if d = "" then "anonymous" else d

/-- The request handler pipeline of `api/translate.ts`, with the clock,
the body-parse outcome and the upstream outcome passed explicitly. -/
def handler (killSwitch apiKeyPresent : Bool) (method : String)
    (bodyParseFails : Bool) (text : Option String) (deviceId : Option String)
    (now : Int) (up : Upstream) (st : St) : Resp × St :=
  if method = "OPTIONS" then (.empty 204, st)
  else if method ≠ "POST" then (.err 405 "METHOD_NOT_ALLOWED", st)
  else if killSwitch then (.err 503 "SERVICE_DISABLED", st)
  else if bodyParseFails then (.err 500 "SERVER_ERROR", st)
  else
    match text with
    | none => (.err 400 "INVALID_INPUT", st)
    | some s =>
      match validateInput s with
      | some code => (.err 400 code, st)
      | none =>
        match getFromCache now s st.cache with
        | (some r, cache2) => (.success r (some true), ⟨st.rl, cache2⟩)
        | (none, cache2) =>
          let res := checkRateLimit now (devKey deviceId) st.rl
          if res.1.allowed = false then
            (.errRetry 429 "RATE_LIMITED" ((res.1.retryAfter).getD 0), ⟨res.2, cache2⟩)
          else if apiKeyPresent = false then
            (.err 500 "SERVER_ERROR", ⟨res.2, cache2⟩)
          else
            match up with
            | .httpErr status =>
              if status = 429 then (.errRetry 429 "RATE_LIMITED" 30, ⟨res.2, cache2⟩)
              else (.err 500 "SERVER_ERROR", ⟨res.2, cache2⟩)
            | .envelopeParseErr => (.err 500 "PARSE_ERROR", ⟨res.2, cache2⟩)
            | .emptyContent => (.err 500 "INCOMPLETE_RESPONSE", ⟨res.2, cache2⟩)
            | .contentParseErr => (.err 500 "PARSE_ERROR", ⟨res.2, cache2⟩)
            | .content j =>
              if isValidResult j then
                (.success j none, ⟨res.2, saveToCache now s j cache2⟩)
              else
                (.err 500 "INCOMPLETE_RESPONSE", ⟨res.2, cache2⟩)

/-- Sample slang-word object used to instantiate theorems. -/
def sampleSlangWord : Json :=
  .obj [("word", .str "fetch"), ("definition", .str "cool")]

/-- Sample translation object for a given generation label. -/
def sampleTranslation (g : String) : Json :=
  .obj [("generation", .str g), ("text", .str "that is so fetch"),
        ("slangWords", .arr [sampleSlangWord])]

/-- A sample upstream result passing the source's structure validation. -/
def sampleResult : Json :=
  .obj [("detectedGeneration", .str "Millennials"), ("originalText", .str "hello"),
        ("translations", .arr
          [sampleTranslation "Classic", sampleTranslation "Baby Boomers",
           sampleTranslation "Gen X", sampleTranslation "Millennials",
           sampleTranslation "Gen Z", sampleTranslation "Gen Alpha"])]

/-- The fixed 6-member generation enumeration of the specification. -/
def GENERATIONS : List String :=
  ["Classic", "Baby Boomers", "Gen X", "Millennials", "Gen Z", "Gen Alpha"]

/-- The claimed invariant: every translation's generation is drawn from
the 6-member enumeration and no two translations share one. -/
def ClaimUniqueGenerations (x : Json) : Prop :=
  ∀ ts, x.getField "translations" = some (.arr ts) →
    (∀ t ∈ ts, ∃ g, t.getField "generation" = some (.str g) ∧ g ∈ GENERATIONS) ∧
    ts.Pairwise (fun a b => a.getField "generation" ≠ b.getField "generation")

/-- A translation whose generation label lies outside the enumeration;
six copies of it still pass the source's structure validation. -/
def dupTranslation : Json :=
  .obj [("generation", .str "Duplicated Gen"), ("text", .str "yo"),
        ("slangWords", .arr [])]

/-- An upstream result whose six translations all carry the same
out-of-enumeration generation label. -/
def dupResult : Json :=
  .obj [("detectedGeneration", .str "Gen Z"), ("originalText", .str "hello"),
        ("translations", .arr (List.replicate 6 dupTranslation))]

/-- Every stored cache result passes the source's structure validation. -/
abbrev CacheValid (cache : CacheMap) : Prop :=
  ∀ p ∈ cache, isValidResult p.2.result = true

/-- A 21-word input whose trimmed length also exceeds the character cap. -/
def longWordyText : String :=
  "aaaa aaaa aaaa aaaa aaaa aaaa aaaa aaaa aaaa aaaa aaaa aaaa aaaa aaaa aaaa aaaa aaaa aaaa aaaa aaaa aaaa"

/-- The state transition of one `checkRateLimit` call. -/
def rlStep (rl : RLMap) (c : String × Int) : RLMap := (checkRateLimit c.2 c.1 rl).2

/-- Every stored rate-limit count is between 1 and the per-window maximum. -/
def RLInv (rl : RLMap) : Prop :=
  ∀ p ∈ rl, 1 ≤ p.2.count ∧ p.2.count ≤ RATE_LIMIT_REQUESTS

/-- Looking up the key just written by `Map.set` yields the new value. -/
theorem lookup_setA {α : Type} (m : List (String × α)) (k : String) (v : α) :
    List.lookup k (setA m k v) = some v := by
  induction m with
  | nil => simp [setA, List.lookup]
  | cons p t ih =>
    by_cases h : p.1 = k
    · simp [setA, h, List.lookup]
    · have hbe : (k == p.1) = false := beq_eq_false_iff_ne.mpr (fun he => h he.symm)
      simp [setA, h, List.lookup, hbe, ih]

/-- Every entry of the store after `Map.set` is an old entry or the new one. -/
theorem mem_setA {α : Type} {m : List (String × α)} {k : String} {v : α} {p : String × α}
    (h : p ∈ setA m k v) : p ∈ m ∨ p = (k, v) := by
  induction m with
  | nil => simp [setA] at h; simp [h]
  | cons q t ih =>
    by_cases hq : q.1 = k
    · simp [setA, hq] at h
      rcases h with h | h
      · right; simp [h]
      · left; simp [h]
    · simp [setA, hq] at h
      rcases h with h | h
      · left; simp [h]
      · rcases ih h with h2 | h2
        · left; simp [h2]
        · right; exact h2

/-- A successful lookup names an entry of the store. -/
theorem lookup_mem {α : Type} {m : List (String × α)} {k : String} {v : α}
    (h : List.lookup k m = some v) : (k, v) ∈ m := by
  induction m with
  | nil => simp [List.lookup] at h
  | cons q t ih =>
    by_cases hq : k = q.1
    · have hbe : (k == q.1) = true := beq_iff_eq.mpr hq
      simp [List.lookup, hbe] at h
      rw [List.mem_cons]
      left
      rw [hq, ← h]
    · have hbe : (k == q.1) = false := beq_eq_false_iff_ne.mpr hq
      simp [List.lookup, hbe] at h
      rw [List.mem_cons]
      right
      exact ih h

/-- `isStrField` holds exactly when the field is present and a string. -/
theorem isStrField_iff (x : Json) (k : String) :
    isStrField x k = true ↔ ∃ s, x.getField k = some (Json.str s) := by
  unfold isStrField
  cases hg : x.getField k with
  | none => simp
  | some v => cases v <;> simp

/-- A value with a readable field is an object, hence truthy and of
`typeof` object. -/
theorem getField_obj {x : Json} {k : String} {v : Json} (h : x.getField k = some v) :
    x.truthy = true ∧ typeofObject x = true := by
  cases x with
  | obj fs => exact ⟨rfl, rfl⟩
  | null => simp [Json.getField] at h
  | bool b => simp [Json.getField] at h
  | num n => simp [Json.getField] at h
  | str s => simp [Json.getField] at h
  | arr l => simp [Json.getField] at h

/-- The slang-word check of the source validator, restated as the
specification's words. -/
theorem isValidSlangWord_iff (sw : Json) :
    isValidSlangWord sw = true ↔
      ((∃ w, sw.getField "word" = some (.str w)) ∧
       (∃ d, sw.getField "definition" = some (.str d))) := by
  constructor
  · intro h
    simp only [isValidSlangWord, Bool.and_eq_true] at h
    exact ⟨(isStrField_iff _ _).mp h.1.2, (isStrField_iff _ _).mp h.2⟩
  · rintro ⟨⟨w, hw⟩, ⟨d, hd⟩⟩
    have hob := getField_obj hw
    simp only [isValidSlangWord, Bool.and_eq_true]
    exact ⟨⟨hob.1, (isStrField_iff _ _).mpr ⟨w, hw⟩⟩, (isStrField_iff _ _).mpr ⟨d, hd⟩⟩

/-- The per-translation check of the source validator, restated as the
specification's words. -/
theorem isValidTranslation_iff (t : Json) :
    isValidTranslation t = true ↔
      ((∃ s, t.getField "generation" = some (.str s)) ∧
       (∃ s, t.getField "text" = some (.str s)) ∧
       (∃ sws, t.getField "slangWords" = some (.arr sws) ∧
         ∀ sw ∈ sws,
           (∃ w, sw.getField "word" = some (.str w)) ∧
           (∃ d, sw.getField "definition" = some (.str d)))) := by
  constructor
  · intro h
    simp only [isValidTranslation, Bool.and_eq_true] at h
    obtain ⟨⟨⟨⟨htr, hobj⟩, hg⟩, htx⟩, hsw⟩ := h
    refine ⟨(isStrField_iff _ _).mp hg, (isStrField_iff _ _).mp htx, ?_⟩
    cases hgf : t.getField "slangWords" with
    | none => rw [hgf] at hsw; simp at hsw
    | some v =>
      rw [hgf] at hsw
      cases v with
      | arr sws =>
        simp only [List.all_eq_true] at hsw
        exact ⟨sws, rfl, fun sw hmem => (isValidSlangWord_iff sw).mp (hsw sw hmem)⟩
      | null => simp at hsw
      | bool b => simp at hsw
      | num n => simp at hsw
      | str s => simp at hsw
      | obj fs => simp at hsw
  · rintro ⟨⟨g, hg⟩, ⟨tx, htx⟩, ⟨sws, hsws, hall⟩⟩
    have hob := getField_obj hg
    simp only [isValidTranslation, Bool.and_eq_true]
    refine ⟨⟨⟨⟨hob.1, hob.2⟩, (isStrField_iff _ _).mpr ⟨g, hg⟩⟩,
      (isStrField_iff _ _).mpr ⟨tx, htx⟩⟩, ?_⟩
    rw [hsws]
    simp only [List.all_eq_true]
    exact fun sw hmem => (isValidSlangWord_iff sw).mpr (hall sw hmem)

/-- The source's `isValidResult` computes exactly the schema the
specification describes in words. -/
theorem isValidResult_iff_spec (x : Json) :
    isValidResult x = true ↔ SpecValidResult x := by
  constructor
  · intro h
    simp only [isValidResult, Bool.and_eq_true] at h
    obtain ⟨⟨⟨⟨htr, hobj⟩, hdg⟩, hot⟩, hts⟩ := h
    refine ⟨(isStrField_iff _ _).mp hdg, (isStrField_iff _ _).mp hot, ?_⟩
    cases hgf : x.getField "translations" with
    | none => rw [hgf] at hts; simp at hts
    | some v =>
      rw [hgf] at hts
      cases v with
      | arr ts =>
        simp only [Bool.and_eq_true, beq_iff_eq, List.all_eq_true] at hts
        exact ⟨ts, rfl, hts.1, fun t hmem => (isValidTranslation_iff t).mp (hts.2 t hmem)⟩
      | null => simp at hts
      | bool b => simp at hts
      | num n => simp at hts
      | str s => simp at hts
      | obj fs => simp at hts
  · rintro ⟨⟨dg, hdg⟩, ⟨ot, hot⟩, ⟨ts, hts, hlen, hall⟩⟩
    have hob := getField_obj hdg
    simp only [isValidResult, Bool.and_eq_true]
    refine ⟨⟨⟨⟨hob.1, hob.2⟩, (isStrField_iff _ _).mpr ⟨dg, hdg⟩⟩,
      (isStrField_iff _ _).mpr ⟨ot, hot⟩⟩, ?_⟩
    rw [hts]
    simp only [Bool.and_eq_true, beq_iff_eq, List.all_eq_true]
    exact ⟨hlen, fun t hmem => (isValidTranslation_iff t).mpr (hall t hmem)⟩

/-- On a valid, cache-missing, rate-allowed POST request whose upstream
content parsed, the pipeline reaches the structure-validation gate. -/
theorem handler_fresh (s : String) (dev : Option String) (now : Int) (j : Json) (st : St)
    (hval : validateInput s = none)
    (hmiss : (getFromCache now s st.cache).1 = none)
    (hallow : (checkRateLimit now (devKey dev) st.rl).1.allowed = true) :
    handler false true "POST" false (some s) dev now (.content j) st =
      if isValidResult j then
        (.success j none, ⟨(checkRateLimit now (devKey dev) st.rl).2,
          saveToCache now s j (getFromCache now s st.cache).2⟩)
      else
        (.err 500 "INCOMPLETE_RESPONSE", ⟨(checkRateLimit now (devKey dev) st.rl).2,
          (getFromCache now s st.cache).2⟩) := by
  rcases hgc : getFromCache now s st.cache with ⟨o, c2⟩
  rw [hgc] at hmiss
  simp only at hmiss
  subst hmiss
  simp only [handler, hval, hgc, hallow]
  norm_num
  exact fun hcontra => absurd hcontra (by decide)

/-- On a valid POST request that hits the cache, the handler answers
from the cache with the `cached` marker set, touching no other state. -/
theorem handler_hit (s : String) (dev : Option String) (now : Int) (up : Upstream)
    (st : St) (r : Json)
    (hval : validateInput s = none)
    (hhit : (getFromCache now s st.cache).1 = some r) :
    handler false true "POST" false (some s) dev now up st =
      (.success r (some true), ⟨st.rl, (getFromCache now s st.cache).2⟩) := by
  rcases hgc : getFromCache now s st.cache with ⟨o, c2⟩
  rw [hgc] at hhit
  simp only at hhit
  subst hhit
  simp only [handler, hval, hgc]
  norm_num
  exact fun hcontra => absurd hcontra (by decide)

/-- Reading the cache for a text just written is a hit while the TTL
has not elapsed, and leaves the store unchanged. -/
theorem getFromCache_after_save (now now2 : Int) (s : String) (j : Json) (cache : CacheMap)
    (httl : now2 - now ≤ CACHE_TTL_MS) :
    getFromCache now2 s (saveToCache now s j cache) =
      (some j, saveToCache now s j cache) := by
  have hl := lookup_setA
    (if 100 < cache.length then
      cache.filter (fun p => ¬ (((sortByTs cache).take 50).map (fun p => p.1)).contains p.1)
     else cache)
    (getCacheKey s) ⟨j, now, normalizeText s⟩
  have h1 : ¬ (now2 - now > CACHE_TTL_MS) := by omega
  simp only [getFromCache, saveToCache, hl, h1, if_false]
  simp

/-- `Map.delete` preserves validity of all stored results. -/
theorem cacheValid_delA {cache : CacheMap} {k : String} (h : CacheValid cache) :
    CacheValid (delA cache k) :=
  fun p hp => h p (List.mem_filter.mp hp).1

/-- A cache read preserves store validity and only yields valid results. -/
theorem cacheValid_getFromCache {now : Int} {text : String} {cache : CacheMap}
    (h : CacheValid cache) :
    CacheValid (getFromCache now text cache).2 ∧
    (∀ r, (getFromCache now text cache).1 = some r → isValidResult r = true) := by
  cases hl : List.lookup (getCacheKey text) cache with
  | none =>
    constructor
    · simpa [getFromCache, hl] using h
    · simp [getFromCache, hl]
  | some entry =>
    by_cases h1 : now - entry.timestamp > CACHE_TTL_MS
    · constructor
      · simpa [getFromCache, hl, h1] using cacheValid_delA h
      · simp [getFromCache, hl, h1]
    · by_cases h2 : entry.normalizedText = normalizeText text
      · constructor
        · simpa [getFromCache, hl, h1, h2] using h
        · intro r hr
          simp [getFromCache, hl, h1, h2] at hr
          rw [← hr]
          exact h _ (lookup_mem hl)
      · constructor
        · simpa [getFromCache, hl, h1, h2] using h
        · simp [getFromCache, hl, h1, h2]

/-- Writing a validated result preserves validity of all stored results. -/
theorem cacheValid_save {now : Int} {text : String} {j : Json} {cache : CacheMap}
    (hcv : CacheValid cache) (hj : isValidResult j = true) :
    CacheValid (saveToCache now text j cache) := by
  intro p hp
  simp only [saveToCache] at hp
  rcases mem_setA hp with h | h
  · by_cases hlen : 100 < cache.length
    · rw [if_pos hlen] at h
      exact hcv p (List.mem_filter.mp h).1
    · rw [if_neg hlen] at h
      exact hcv p h
  · rw [h]
    exact hj

/-- One `checkRateLimit` call preserves the count bounds of the store. -/
theorem rlInv_step (now : Int) (d : String) {rl : RLMap} (h : RLInv rl) :
    RLInv (checkRateLimit now d rl).2 := by
  intro p hp
  cases hl : List.lookup (if d = "" then "anonymous" else d) rl with
  | none =>
    simp only [checkRateLimit, hl] at hp
    rcases mem_setA hp with hm | hm
    · exact h p hm
    · rw [hm]
      refine ⟨le_refl 1, ?_⟩
      show (1 : Nat) ≤ RATE_LIMIT_REQUESTS
      decide
  | some data =>
    by_cases h1 : now - data.windowStart > RATE_LIMIT_WINDOW_MS
    · simp only [checkRateLimit, hl, if_pos h1] at hp
      rcases mem_setA hp with hm | hm
      · exact h p hm
      · rw [hm]
        refine ⟨le_refl 1, ?_⟩
        show (1 : Nat) ≤ RATE_LIMIT_REQUESTS
        decide
    · by_cases h2 : data.count ≥ RATE_LIMIT_REQUESTS
      · simp only [checkRateLimit, hl, if_neg h1, if_pos h2] at hp
        exact h p hp
      · simp only [checkRateLimit, hl, if_neg h1, if_neg h2] at hp
        rcases mem_setA hp with hm | hm
        · exact h p hm
        · rw [hm]
          refine ⟨Nat.succ_le_succ (Nat.zero_le _), ?_⟩
          exact Nat.succ_le_of_lt (not_le.mp h2)

/-- C1: for an upstream reply whose content parses as JSON, the handler
returns a 200 success exactly when the parsed object satisfies the
specification schema (string `detectedGeneration`, string `originalText`,
exactly 6 translations each with string `generation`, string `text` and
well-formed `slangWords`); any deviation yields a 500 response with code
`INCOMPLETE_RESPONSE`, and the object is never returned as output. -/
theorem c1_schema_gate (s : String) (dev : Option String) (now : Int) (j : Json) (st : St)
    (hval : validateInput s = none)
    (hmiss : (getFromCache now s st.cache).1 = none)
    (hallow : (checkRateLimit now (devKey dev) st.rl).1.allowed = true) :
    (((handler false true "POST" false (some s) dev now (.content j) st).1 =
        .success j none) ↔ SpecValidResult j) ∧
    (¬ SpecValidResult j →
      (handler false true "POST" false (some s) dev now (.content j) st).1 =
        .err 500 "INCOMPLETE_RESPONSE") := by
  rw [handler_fresh s dev now j st hval hmiss hallow]
  by_cases hv : isValidResult j = true
  · have hs := (isValidResult_iff_spec j).mp hv
    simp [hv, hs]
  · have hnv : ¬ SpecValidResult j := fun h => hv ((isValidResult_iff_spec j).mpr h)
    rw [if_neg hv]
    simp [hnv]

/-- Witness instantiating C1 at a concrete request and upstream reply. -/
theorem c1_schema_gate_witness :
    validateInput "hello" = none ∧
    (getFromCache 0 "hello" ([] : CacheMap)).1 = none ∧
    (checkRateLimit 0 (devKey none) ([] : RLMap)).1.allowed = true ∧
    ((((handler false true "POST" false (some "hello") none 0
          (.content sampleResult) ⟨[], []⟩).1 = .success sampleResult none) ↔
        SpecValidResult sampleResult) ∧
     (¬ SpecValidResult sampleResult →
       (handler false true "POST" false (some "hello") none 0
          (.content sampleResult) ⟨[], []⟩).1 = .err 500 "INCOMPLETE_RESPONSE")) := by
  have h := c1_schema_gate "hello" none 0 sampleResult ⟨[], []⟩ rfl rfl rfl
  exact ⟨rfl, rfl, rfl, h⟩

/-- C2: a second call with the identical text immediately after a fresh
success answers the same output with the `cached` marker set to true and
leaves the whole state, in particular the rate-limit store, unchanged;
the cache is consulted before the rate limiter. -/
theorem c2_cached_idempotent (s : String) (dev dev2 : Option String) (now now2 : Int)
    (j : Json) (st : St) (up2 : Upstream)
    (hval : validateInput s = none)
    (hmiss : (getFromCache now s st.cache).1 = none)
    (hallow : (checkRateLimit now (devKey dev) st.rl).1.allowed = true)
    (hv : isValidResult j = true)
    (httl : now2 - now ≤ CACHE_TTL_MS) :
    (handler false true "POST" false (some s) dev now (.content j) st).1 =
      .success j none ∧
    handler false true "POST" false (some s) dev2 now2 up2
        (handler false true "POST" false (some s) dev now (.content j) st).2 =
      (.success j (some true),
       (handler false true "POST" false (some s) dev now (.content j) st).2) := by
  have h1 : handler false true "POST" false (some s) dev now (.content j) st =
      (.success j none,
       ⟨(checkRateLimit now (devKey dev) st.rl).2,
        saveToCache now s j (getFromCache now s st.cache).2⟩) := by
    rw [handler_fresh s dev now j st hval hmiss hallow, if_pos hv]
  refine ⟨by rw [h1], ?_⟩
  rw [h1]
  have hsave := getFromCache_after_save now now2 s j (getFromCache now s st.cache).2 httl
  have hhit : (getFromCache now2 s
      (saveToCache now s j (getFromCache now s st.cache).2)).1 = some j := by
    rw [hsave]
  have h2 := handler_hit s dev2 now2 up2
    ⟨(checkRateLimit now (devKey dev) st.rl).2,
     saveToCache now s j (getFromCache now s st.cache).2⟩ j hval hhit
  rw [h2, hsave]

/-- Witness instantiating C2 at a concrete request pair. -/
theorem c2_cached_idempotent_witness :
    validateInput "hello" = none ∧
    (getFromCache 0 "hello" ([] : CacheMap)).1 = none ∧
    (checkRateLimit 0 (devKey none) ([] : RLMap)).1.allowed = true ∧
    isValidResult sampleResult = true ∧
    ((1 : Int) - 0 ≤ CACHE_TTL_MS) ∧
    ((handler false true "POST" false (some "hello") none 0
        (.content sampleResult) ⟨[], []⟩).1 = .success sampleResult none ∧
     handler false true "POST" false (some "hello") (some "otherdevice") 1
        Upstream.emptyContent
        (handler false true "POST" false (some "hello") none 0
          (.content sampleResult) ⟨[], []⟩).2 =
      (.success sampleResult (some true),
       (handler false true "POST" false (some "hello") none 0
          (.content sampleResult) ⟨[], []⟩).2)) := by
  have h := c2_cached_idempotent "hello" none (some "otherdevice") 0 1 sampleResult
    ⟨[], []⟩ Upstream.emptyContent rfl rfl rfl rfl (by decide)
  exact ⟨rfl, rfl, rfl, rfl, by decide, h⟩

/-- C3 counterexample: a result whose six translations all carry the
out-of-enumeration generation label `Duplicated Gen` passes the source's
validation and is returned as output, so the claimed enumeration and
uniqueness invariant fails on the code. -/
theorem c3_counterexample :
    (handler false true "POST" false (some "hello") none 0
        (.content dupResult) ⟨[], []⟩).1 = .success dupResult none ∧
    ¬ ClaimUniqueGenerations dupResult := by
  constructor
  · rfl
  · intro h
    have h2 := h (List.replicate 6 dupTranslation) rfl
    obtain ⟨g, hg, hmem⟩ := h2.1 dupTranslation (by simp)
    have hgc : dupTranslation.getField "generation" =
        some (Json.str "Duplicated Gen") := rfl
    rw [hgc] at hg
    simp only [Option.some.injEq, Json.str.injEq] at hg
    rw [← hg] at hmem
    simp [GENERATIONS] at hmem

/-- C3 (amended): provided every cached entry passed the structure
validation (as all handler-written entries do), every output the handler
returns passes `isValidResult` — exactly 6 translations with string
fields — and the validity of the cache store is preserved; membership of
`generation` in the 6-member enumeration and uniqueness are not checked. -/
theorem c3_validated_output (killSwitch apiKeyPresent : Bool) (method : String)
    (bodyParseFails : Bool) (text deviceId : Option String) (now : Int)
    (up : Upstream) (st : St) (hcv : CacheValid st.cache) :
    (∀ j c,
      (handler killSwitch apiKeyPresent method bodyParseFails text deviceId now up st).1 =
        .success j c → isValidResult j = true) ∧
    CacheValid
      (handler killSwitch apiKeyPresent method bodyParseFails text deviceId now up st).2.cache := by
  by_cases hm1 : method = "OPTIONS"
  · simp only [handler, if_pos hm1]
    exact ⟨fun j c h => by simp at h, hcv⟩
  · simp only [handler, if_neg hm1]
    by_cases hm2 : method ≠ "POST"
    · simp only [if_pos hm2]
      exact ⟨fun j c h => by simp at h, hcv⟩
    · simp only [if_neg hm2]
      by_cases hks : killSwitch = true
      · simp only [if_pos hks]
        exact ⟨fun j c h => by simp at h, hcv⟩
      · simp only [if_neg hks]
        by_cases hbp : bodyParseFails = true
        · simp only [if_pos hbp]
          exact ⟨fun j c h => by simp at h, hcv⟩
        · simp only [if_neg hbp]
          cases text with
          | none => exact ⟨fun j c h => by simp at h, hcv⟩
          | some s =>
            dsimp only
            cases hval2 : validateInput s with
            | some code =>
              exact ⟨fun j c h => by simp at h, hcv⟩
            | none =>
              dsimp only
              rcases hgc : getFromCache now s st.cache with ⟨o, c2⟩
              have hc2 : CacheValid c2 := by
                have h2 := (@cacheValid_getFromCache now s st.cache hcv).1
                rw [hgc] at h2
                exact h2
              cases o with
              | some r =>
                have hr : isValidResult r = true := by
                  have h3 := (@cacheValid_getFromCache now s st.cache hcv).2 r
                  rw [hgc] at h3
                  exact h3 rfl
                constructor
                · intro j c h
                  simp at h
                  rw [← h.1]
                  exact hr
                · exact hc2
              | none =>
                dsimp only
                by_cases hal : (checkRateLimit now (devKey deviceId) st.rl).1.allowed = false
                · simp only [if_pos hal]
                  exact ⟨fun j c h => by simp at h, hc2⟩
                · simp only [if_neg hal]
                  by_cases hak : apiKeyPresent = false
                  · simp only [if_pos hak]
                    exact ⟨fun j c h => by simp at h, hc2⟩
                  · simp only [if_neg hak]
                    cases up with
                    | httpErr status =>
                      dsimp only
                      by_cases hs : status = 429
                      · simp only [if_pos hs]
                        exact ⟨fun j c h => by simp at h, hc2⟩
                      · simp only [if_neg hs]
                        exact ⟨fun j c h => by simp at h, hc2⟩
                    | envelopeParseErr => exact ⟨fun j c h => by simp at h, hc2⟩
                    | emptyContent => exact ⟨fun j c h => by simp at h, hc2⟩
                    | contentParseErr => exact ⟨fun j c h => by simp at h, hc2⟩
                    | content j0 =>
                      dsimp only
                      by_cases hv : isValidResult j0 = true
                      · simp only [if_pos hv]
                        constructor
                        · intro j c h
                          simp at h
                          rw [← h.1]
                          exact hv
                        · exact cacheValid_save hc2 hv
                      · simp only [if_neg hv]
                        exact ⟨fun j c h => by simp at h, hc2⟩

/-- Witness instantiating the amended C3 at a concrete request. -/
theorem c3_validated_output_witness :
    CacheValid ([] : CacheMap) ∧
    ((∀ j c,
       (handler false true "POST" false (some "hello") none 0
         (.content sampleResult) ⟨[], []⟩).1 = .success j c → isValidResult j = true) ∧
     CacheValid
       (handler false true "POST" false (some "hello") none 0
         (.content sampleResult) ⟨[], []⟩).2.cache) := by
  have hcv : CacheValid ([] : CacheMap) := by
    intro p hp
    simp at hp
  exact ⟨hcv, c3_validated_output false true "POST" false (some "hello") none 0
    (.content sampleResult) ⟨[], []⟩ hcv⟩

/-- C4 (amended): a successful non-cached translation answers 200 with
body `output` only — the `cached` field is absent rather than false —
after the result has been written through to the response cache. -/
theorem c4_fresh_success_body (s : String) (dev : Option String) (now : Int)
    (j : Json) (st : St)
    (hval : validateInput s = none)
    (hmiss : (getFromCache now s st.cache).1 = none)
    (hallow : (checkRateLimit now (devKey dev) st.rl).1.allowed = true)
    (hv : isValidResult j = true) :
    (handler false true "POST" false (some s) dev now (.content j) st).1 =
      .success j none ∧
    List.lookup (getCacheKey s)
        (handler false true "POST" false (some s) dev now (.content j) st).2.cache =
      some ⟨j, now, normalizeText s⟩ := by
  have h1 : handler false true "POST" false (some s) dev now (.content j) st =
      (.success j none,
       ⟨(checkRateLimit now (devKey dev) st.rl).2,
        saveToCache now s j (getFromCache now s st.cache).2⟩) := by
    rw [handler_fresh s dev now j st hval hmiss hallow, if_pos hv]
  refine ⟨by rw [h1], ?_⟩
  rw [h1]
  simp only [saveToCache]
  exact lookup_setA _ _ _

/-- Witness instantiating the amended C4 at a concrete request. -/
theorem c4_fresh_success_body_witness :
    validateInput "hello" = none ∧
    (getFromCache 0 "hello" ([] : CacheMap)).1 = none ∧
    (checkRateLimit 0 (devKey none) ([] : RLMap)).1.allowed = true ∧
    isValidResult sampleResult = true ∧
    ((handler false true "POST" false (some "hello") none 0
        (.content sampleResult) ⟨[], []⟩).1 = .success sampleResult none ∧
     List.lookup (getCacheKey "hello")
        (handler false true "POST" false (some "hello") none 0
          (.content sampleResult) ⟨[], []⟩).2.cache =
      some ⟨sampleResult, 0, normalizeText "hello"⟩) := by
  have h := c4_fresh_success_body "hello" none 0 sampleResult ⟨[], []⟩ rfl rfl rfl rfl
  exact ⟨rfl, rfl, rfl, rfl, h⟩

/-- C4 counterexample: the fresh-success body carries no `cached` field,
so it is not the claimed body with `cached` equal to false. -/
theorem c4_counterexample :
    (handler false true "POST" false (some "hello") none 0
        (.content sampleResult) ⟨[], []⟩).1 = .success sampleResult none ∧
    Resp.success sampleResult none ≠ Resp.success sampleResult (some false) := by
  constructor
  · rfl
  · simp

/-- C5 (amended): the rate limiter allows and resets the window —
storing count 1 with the current time — exactly when there is no entry
or the elapsed time strictly exceeds the window (the only-if direction
holding for every store with counts at least 1, as all reachable stores
are); at exactly `windowMs` elapsed it does not reset: it increments
below the cap and denies at the cap. -/
theorem c5_reset_boundary (now : Int) (d : String) (rl : RLMap) :
    ((List.lookup (if d = "" then "anonymous" else d) rl = none ∨
      (∃ e, List.lookup (if d = "" then "anonymous" else d) rl = some e ∧
        now - e.windowStart > RATE_LIMIT_WINDOW_MS)) →
      checkRateLimit now d rl =
        (⟨true, none⟩, setA rl (if d = "" then "anonymous" else d) ⟨1, now⟩)) ∧
    (RLInv rl →
      checkRateLimit now d rl =
        (⟨true, none⟩, setA rl (if d = "" then "anonymous" else d) ⟨1, now⟩) →
      (List.lookup (if d = "" then "anonymous" else d) rl = none ∨
       (∃ e, List.lookup (if d = "" then "anonymous" else d) rl = some e ∧
         now - e.windowStart > RATE_LIMIT_WINDOW_MS))) ∧
    (∀ e, List.lookup (if d = "" then "anonymous" else d) rl = some e →
      now - e.windowStart = RATE_LIMIT_WINDOW_MS → e.count < RATE_LIMIT_REQUESTS →
      checkRateLimit now d rl =
        (⟨true, none⟩, setA rl (if d = "" then "anonymous" else d)
          ⟨e.count + 1, e.windowStart⟩)) ∧
    (∀ e, List.lookup (if d = "" then "anonymous" else d) rl = some e →
      now - e.windowStart = RATE_LIMIT_WINDOW_MS → e.count ≥ RATE_LIMIT_REQUESTS →
      (checkRateLimit now d rl).1.allowed = false) := by
  refine ⟨?_, ?_, ?_, ?_⟩
  · rintro (hnone | ⟨e, he, hgt⟩)
    · simp [checkRateLimit, hnone]
    · simp [checkRateLimit, he, hgt]
  · intro hinv hres
    cases hl : List.lookup (if d = "" then "anonymous" else d) rl with
    | none => exact Or.inl rfl
    | some data =>
      by_cases h1 : now - data.windowStart > RATE_LIMIT_WINDOW_MS
      · exact Or.inr ⟨data, rfl, h1⟩
      · exfalso
        by_cases h2 : data.count ≥ RATE_LIMIT_REQUESTS
        · have hstep : checkRateLimit now d rl =
              (⟨false, some (max 0 (jsCeilDiv1000
                (data.windowStart + RATE_LIMIT_WINDOW_MS - now)))⟩, rl) := by
            simp [checkRateLimit, hl, h1, h2]
          rw [hstep] at hres
          simp at hres
        · have hstep : checkRateLimit now d rl =
              (⟨true, none⟩, setA rl (if d = "" then "anonymous" else d)
                ⟨data.count + 1, data.windowStart⟩) := by
            simp [checkRateLimit, hl, h1, h2]
          rw [hstep] at hres
          have h3 : setA rl (if d = "" then "anonymous" else d)
                ⟨data.count + 1, data.windowStart⟩ =
              setA rl (if d = "" then "anonymous" else d) ⟨1, now⟩ :=
            congrArg Prod.snd hres
          have h4 := lookup_setA rl (if d = "" then "anonymous" else d)
            (⟨data.count + 1, data.windowStart⟩ : RLEntry)
          rw [h3, lookup_setA] at h4
          injection h4 with h4
          injection h4 with hc hw
          have h6 : 1 ≤ data.count :=
            (hinv ((if d = "" then "anonymous" else d), data) (lookup_mem hl)).1
          omega
  · intro e he heq hc
    have h1 : ¬ now - e.windowStart > RATE_LIMIT_WINDOW_MS := by
      rw [heq]
      exact lt_irrefl _
    have h2 : ¬ e.count ≥ RATE_LIMIT_REQUESTS := not_le.mpr hc
    simp [checkRateLimit, he, h1, h2]
  · intro e he heq hc
    have h1 : ¬ now - e.windowStart > RATE_LIMIT_WINDOW_MS := by
      rw [heq]
      exact lt_irrefl _
    simp [checkRateLimit, he, h1, hc]

/-- Witness instantiating the amended C5: a fresh key resets, the reset
result on a store satisfying the count invariant certifies absence or
strict expiry, and a request arriving exactly one window after the
start increments instead of resetting. -/
theorem c5_reset_boundary_witness :
    (List.lookup "x" ([] : RLMap) = none) ∧
    checkRateLimit 0 "x" [] = (⟨true, none⟩, setA [] "x" ⟨1, 0⟩) ∧
    RLInv ([] : RLMap) ∧
    (List.lookup "x" ([] : RLMap) = none ∨
     (∃ e, List.lookup "x" ([] : RLMap) = some e ∧
       (0 : Int) - e.windowStart > RATE_LIMIT_WINDOW_MS)) ∧
    (List.lookup "d" [("d", (⟨5, 0⟩ : RLEntry))] = some ⟨5, 0⟩) ∧
    ((3600000 : Int) - 0 = RATE_LIMIT_WINDOW_MS) ∧ (5 < RATE_LIMIT_REQUESTS) ∧
    checkRateLimit 3600000 "d" [("d", ⟨5, 0⟩)] =
      (⟨true, none⟩, setA [("d", ⟨5, 0⟩)] "d" ⟨6, 0⟩) := by
  have hinv : RLInv ([] : RLMap) := by
    intro p hp
    simp at hp
  refine ⟨rfl, ?_, hinv, ?_, rfl, by decide, by decide, ?_⟩
  · exact (c5_reset_boundary 0 "x" []).1 (Or.inl rfl)
  · exact (c5_reset_boundary 0 "x" []).2.1 hinv rfl
  · exact (c5_reset_boundary 3600000 "d" [("d", ⟨5, 0⟩)]).2.2.1 ⟨5, 0⟩ rfl
      (by decide) (by decide)

/-- C5 counterexample: at exactly `windowMs` elapsed the entry is
incremented in place, not reset to count 1 with the new window start as
the claim requires. -/
theorem c5_counterexample :
    checkRateLimit 3600000 "d" [("d", ⟨5, 0⟩)] =
      (⟨true, none⟩, [("d", ⟨6, 0⟩)]) ∧
    [("d", (⟨6, 0⟩ : RLEntry))] ≠ [("d", (⟨1, 3600000⟩ : RLEntry))] := by
  refine ⟨rfl, by decide⟩

/-- C6 (amended): a key with an unexpired entry at or above the cap is
denied with `retryAfter` equal to `ceil((windowStart + windowMs - t)/1000)`
clamped to at least 0; strictly inside the window the value is at least
1, hence the 11th request within the hour is denied with a positive
`retryAfter`. -/
theorem c6_deny_retry (now : Int) (d : String) (rl : RLMap) (e : RLEntry)
    (he : List.lookup (if d = "" then "anonymous" else d) rl = some e)
    (hin : now - e.windowStart ≤ RATE_LIMIT_WINDOW_MS)
    (hc : e.count ≥ RATE_LIMIT_REQUESTS) :
    checkRateLimit now d rl =
      (⟨false, some (max 0 (jsCeilDiv1000
        (e.windowStart + RATE_LIMIT_WINDOW_MS - now)))⟩, rl) ∧
    (now - e.windowStart < RATE_LIMIT_WINDOW_MS →
      ∃ r, (checkRateLimit now d rl).1.retryAfter = some r ∧ 1 ≤ r) := by
  have h1 : ¬ now - e.windowStart > RATE_LIMIT_WINDOW_MS := not_lt.mpr hin
  have heq : checkRateLimit now d rl =
      (⟨false, some (max 0 (jsCeilDiv1000
        (e.windowStart + RATE_LIMIT_WINDOW_MS - now)))⟩, rl) := by
    simp [checkRateLimit, he, h1, hc]
  refine ⟨heq, fun hlt => ?_⟩
  rw [heq]
  refine ⟨_, rfl, ?_⟩
  have hceil : 1 ≤ jsCeilDiv1000 (e.windowStart + RATE_LIMIT_WINDOW_MS - now) := by
    unfold jsCeilDiv1000
    unfold RATE_LIMIT_WINDOW_MS at hlt ⊢
    omega
  exact le_trans hceil (le_max_right 0 _)

/-- Witness instantiating the amended C6 at a concrete saturated key. -/
theorem c6_deny_retry_witness :
    (List.lookup "d" [("d", (⟨10, 0⟩ : RLEntry))] = some ⟨10, 0⟩) ∧
    ((1 : Int) - 0 ≤ RATE_LIMIT_WINDOW_MS) ∧ ((10 : Nat) ≥ RATE_LIMIT_REQUESTS) ∧
    (checkRateLimit 1 "d" [("d", ⟨10, 0⟩)] =
      (⟨false, some (max 0 (jsCeilDiv1000 (0 + RATE_LIMIT_WINDOW_MS - 1)))⟩,
       [("d", ⟨10, 0⟩)]) ∧
     ((1 : Int) - 0 < RATE_LIMIT_WINDOW_MS →
       ∃ r, (checkRateLimit 1 "d" [("d", ⟨10, 0⟩)]).1.retryAfter = some r ∧ 1 ≤ r)) := by
  refine ⟨rfl, by decide, by decide, ?_⟩
  exact c6_deny_retry 1 "d" [("d", ⟨10, 0⟩)] ⟨10, 0⟩ rfl (by decide) (by decide)

/-- C6 counterexample: at exactly the window boundary the denial carries
`retryAfter` 0, so the claimed clamping to at least 1 fails. -/
theorem c6_counterexample :
    checkRateLimit 3600000 "d" [("d", ⟨10, 0⟩)] =
      (⟨false, some 0⟩, [("d", ⟨10, 0⟩)]) ∧ ¬ (1 ≤ (0 : Int)) := by
  refine ⟨rfl, by decide⟩

/-- C7 (amended): a cache read misses exactly when the entry is absent,
expired with `now - createdAt` strictly greater than the TTL, or stored
under a different normalized text; within the TTL — including at exactly
`T + TTL` — the entry is served unchanged, and an expired entry found
during the read is deleted from the store as a side effect. -/
theorem c7_cache_get (now : Int) (text : String) (cache : CacheMap) :
    ((getFromCache now text cache).1 = none ↔
      (List.lookup (getCacheKey text) cache = none ∨
       ∃ e, List.lookup (getCacheKey text) cache = some e ∧
         (now - e.timestamp > CACHE_TTL_MS ∨ e.normalizedText ≠ normalizeText text))) ∧
    (∀ e, List.lookup (getCacheKey text) cache = some e →
      e.normalizedText = normalizeText text → now - e.timestamp ≤ CACHE_TTL_MS →
      getFromCache now text cache = (some e.result, cache)) ∧
    (∀ e, List.lookup (getCacheKey text) cache = some e →
      now - e.timestamp > CACHE_TTL_MS →
      getFromCache now text cache = (none, delA cache (getCacheKey text))) := by
  refine ⟨?_, ?_, ?_⟩
  · cases hl : List.lookup (getCacheKey text) cache with
    | none => simp [getFromCache, hl]
    | some entry =>
      by_cases h1 : now - entry.timestamp > CACHE_TTL_MS
      · simp only [getFromCache, hl, if_pos h1]
        constructor
        · intro _
          exact Or.inr ⟨entry, rfl, Or.inl h1⟩
        · intro _
          trivial
      · by_cases h2 : entry.normalizedText = normalizeText text
        · simp only [getFromCache, hl, if_neg h1]
          rw [if_neg (by simp [h2])]
          constructor
          · intro h
            simp at h
          · rintro (h | ⟨e, he, hcase⟩)
            · simp at h
            · injection he with he
              rw [← he] at hcase
              rcases hcase with h3 | h3
              · exact absurd h3 h1
              · exact absurd h2 h3
        · simp only [getFromCache, hl, if_neg h1]
          rw [if_pos h2]
          constructor
          · intro _
            exact Or.inr ⟨entry, rfl, Or.inr h2⟩
          · intro _
            trivial
  · intro e he hn httl
    have h1 : ¬ now - e.timestamp > CACHE_TTL_MS := not_lt.mpr httl
    simp [getFromCache, he, h1, hn]
  · intro e he h1
    simp [getFromCache, he, h1]

/-- Witness instantiating the amended C7: an entry written at time 0 is
still served at `T + TTL` and is deleted when read at `T + TTL + 1`. -/
theorem c7_cache_get_witness :
    (List.lookup (getCacheKey "hi") (saveToCache 0 "hi" Json.null []) =
      some ⟨Json.null, 0, normalizeText "hi"⟩) ∧
    (CACHE_TTL_MS - (0 : Int) ≤ CACHE_TTL_MS) ∧
    getFromCache CACHE_TTL_MS "hi" (saveToCache 0 "hi" Json.null []) =
      (some Json.null, saveToCache 0 "hi" Json.null []) ∧
    (CACHE_TTL_MS + 1 - (0 : Int) > CACHE_TTL_MS) ∧
    getFromCache (CACHE_TTL_MS + 1) "hi" (saveToCache 0 "hi" Json.null []) =
      (none, delA (saveToCache 0 "hi" Json.null []) (getCacheKey "hi")) := by
  refine ⟨rfl, by decide, ?_, by decide, ?_⟩
  · exact (c7_cache_get CACHE_TTL_MS "hi" (saveToCache 0 "hi" Json.null [])).2.1
      ⟨Json.null, 0, normalizeText "hi"⟩ rfl rfl (by decide)
  · exact (c7_cache_get (CACHE_TTL_MS + 1) "hi" (saveToCache 0 "hi" Json.null [])).2.2
      ⟨Json.null, 0, normalizeText "hi"⟩ rfl (by decide)

/-- C7 counterexample: an entry inserted at time 0 is still a hit when
read at exactly `TTL`, where the claim requires a miss. -/
theorem c7_counterexample :
    (getFromCache CACHE_TTL_MS "hi" (saveToCache 0 "hi" Json.null [])).1 =
      some Json.null ∧ some Json.null ≠ (none : Option Json) := by
  refine ⟨rfl, by simp⟩

/-- C8 (amended): the validator fails with `INVALID_INPUT` exactly when
the text trims to blank, with `INPUT_TOO_LONG` exactly when the trimmed
length exceeds 80, with `TOO_MANY_WORDS` exactly when the trimmed length
is within 80 but the word count exceeds 20 — the length check takes
priority over the word-count check — and accepts otherwise. -/
theorem c8_validate_characterization (s : String) :
    (validateInput s = some "INVALID_INPUT" ↔ jsTrim s = "") ∧
    (validateInput s = some "INPUT_TOO_LONG" ↔ (jsTrim s).length > MAX_CHARACTERS) ∧
    (validateInput s = some "TOO_MANY_WORDS" ↔
      ((jsTrim s).length ≤ MAX_CHARACTERS ∧ countWords (jsTrim s) > MAX_WORDS)) ∧
    (validateInput s = none ↔
      (jsTrim s ≠ "" ∧ (jsTrim s).length ≤ MAX_CHARACTERS ∧
       countWords (jsTrim s) ≤ MAX_WORDS)) := by
  by_cases h0 : s = "" ∨ jsTrim s = ""
  · have ht : jsTrim s = "" := by
      rcases h0 with h | h
      · rw [h]
        decide
      · exact h
    have hlen : ("" : String).length = 0 := rfl
    have hcw : countWords "" = 0 := rfl
    refine ⟨?_, ?_, ?_, ?_⟩ <;>
      simp [validateInput, h0, ht, hlen, hcw, MAX_CHARACTERS, MAX_WORDS]
  · push_neg at h0
    by_cases h1 : (jsTrim s).length > MAX_CHARACTERS
    · have hh : ¬ ((jsTrim s).length ≤ MAX_CHARACTERS) := not_le.mpr h1
      refine ⟨?_, ?_, ?_, ?_⟩ <;> simp [validateInput, h0.1, h0.2, h1, hh]
    · by_cases h2 : countWords (jsTrim s) > MAX_WORDS
      · have hh2 : ¬ (countWords (jsTrim s) ≤ MAX_WORDS) := not_le.mpr h2
        refine ⟨?_, ?_, ?_, ?_⟩ <;>
          simp [validateInput, h0.1, h0.2, h1, h2, hh2, not_lt.mp h1]
      · refine ⟨?_, ?_, ?_, ?_⟩ <;>
          simp [validateInput, h0.1, h0.2, h1, h2, not_lt.mp h1, not_lt.mp h2]

/-- C8 counterexample: a 21-word text longer than 80 characters fails
with `INPUT_TOO_LONG`, not `TOO_MANY_WORDS`, although its word count
exceeds 20 — refuting the claimed exact correspondence for that code. -/
theorem c8_counterexample :
    validateInput longWordyText = some "INPUT_TOO_LONG" ∧
    countWords (jsTrim longWordyText) > MAX_WORDS ∧
    some "INPUT_TOO_LONG" ≠ some "TOO_MANY_WORDS" := by
  refine ⟨rfl, by decide, by simp⟩

/-- C9: with the kill switch enabled, a POST request is answered 503
with code `SERVICE_DISABLED` regardless of body, device, upstream
outcome or stores, and the state is returned untouched. -/
theorem c9_kill_switch (apiKeyPresent bodyParseFails : Bool)
    (text deviceId : Option String) (now : Int) (up : Upstream) (st : St) :
    handler true apiKeyPresent "POST" bodyParseFails text deviceId now up st =
      (.err 503 "SERVICE_DISABLED", st) := rfl

/-- C10: in every rate-limit store reachable by any sequence of
`checkRateLimit` calls from the empty store, each stored count lies
between 1 and the 10-request maximum. -/
theorem c10_count_bounds (calls : List (String × Int)) (k : String) (e : RLEntry)
    (h : List.lookup k (calls.foldl rlStep []) = some e) :
    1 ≤ e.count ∧ e.count ≤ RATE_LIMIT_REQUESTS := by
  have hgen : ∀ (cs : List (String × Int)) (rl : RLMap), RLInv rl →
      RLInv (cs.foldl rlStep rl) := by
    intro cs
    induction cs with
    | nil => exact fun rl h0 => h0
    | cons c t ih => exact fun rl h0 => ih _ (rlInv_step c.2 c.1 h0)
  have base : RLInv ([] : RLMap) := by
    intro p hp
    simp at hp
  exact hgen calls [] base (k, e) (lookup_mem h)

/-- Witness instantiating C10 on a one-call history. -/
theorem c10_count_bounds_witness :
    List.lookup "a" ([("a", (5 : Int))].foldl rlStep []) = some ⟨1, 5⟩ ∧
    (1 ≤ (1 : Nat) ∧ (1 : Nat) ≤ RATE_LIMIT_REQUESTS) := by
  refine ⟨rfl, c10_count_bounds [("a", 5)] "a" ⟨1, 5⟩ rfl⟩
